import Mathlib

/-!
Verification development for the `clock` package of mway/chrono-go:
a shallow embedding of the current-generation fake clock
(`fake_clock.go`, src/unnamed/part_016 lines 351-634) and its fake
timer records (`fake_timer.go`, src/unnamed/part_014), together with
proofs and refutations of the specification's claims about them.

Modelling conventions:
- Go `int64` nanosecond values are modelled as `Int` (the claims under
  study do not hinge on 64-bit wraparound).
- The arena of `*fakeTimer` records is a function `Nat → FakeTimer`;
  a handle (`*fakeTimer` pointer in Go) is the `Nat` id of its record,
  and `FakeClock.order` is the `c.timers` slice as a list of ids.
- A buffered Go channel of capacity 1 is a `List Int` (the tick times
  it currently holds); `trySend`/`tryRecv` model the non-blocking
  `select` cases used by `fakeTimer.tick`.
- Asynchronous hook dispatch (`callCreateCallback` etc., which run
  `go func() { ... }()`) is recorded as a list of emitted `Event`s.
- A delivery `(tid, now)` is recorded whenever the firing scan ticks
  record `tid` at cursor `now`: for a channel timer this is the value
  pushed into its channel, for an `AfterFunc` timer it marks the
  spawned callback invocation.
-/

namespace Chrono

/-- The `fakeTimer` record (src/unnamed/part_014 lines 41-47, plus the
`dur` field that the current `FakeClock.addTimer` / `resetTimer` in
src/unnamed/part_016 lines 500/592 store on it). `hasFn` models
`fn != nil`; `ch` is the contents of the capacity-1 buffered channel. -/
structure FakeTimer where
  hasFn : Bool
  dur : Int
  when : Int
  period : Int
  ch : List Int
  deriving Repr, DecidableEq, Inhabited

/-- `newFakeTimer` (src/unnamed/part_014 lines 49-57, with the extra
`dur` argument of the current call site src/unnamed/part_016 line 500):
a fresh record with an empty capacity-1 channel. -/
def newFakeTimer (dur w period : Int) (hasFn : Bool) : FakeTimer :=
  { hasFn := hasFn, dur := dur, when := w, period := period, ch := [] }

/-- Capacity of a fake timer's delivery channel: `make(chan time.Time, 1)`
in `newFakeTimer` (src/unnamed/part_014 line 51). -/
def chanCap : Nat := 1

/-- A non-blocking send on a capacity-`chanCap` buffered channel with no
waiting receivers: succeeds exactly when a buffer slot is free. -/
def trySend (ch : List Int) (v : Int) : List Int × Bool :=
  if ch.length < chanCap then (ch ++ [v], true) else (ch, false)

/-- A non-blocking receive on a buffered channel: succeeds exactly when
the buffer is non-empty. -/
def tryRecv (ch : List Int) : List Int × Bool :=
  match ch with
  | [] => ([], false)
  | _ :: rest => (rest, true)

/-- Modelled from the spec: the periodic-deadline advance performed when
a ticker fires. The current-generation `fake_timer.go` is missing from
src (src/unnamed/part_014 is an older snapshot whose `newFakeTimer`
arity does not match the current `fake_clock.go` call site), and no
code under src advances a periodic record's deadline at firing; the
spec states "if the alarm is periodic (period > 0), advance its
deadline by exactly one period from the cursor value at firing (not
compounding if multiple periods have elapsed in one jump)". -/
def FakeTimer.advancePeriodic (t : FakeTimer) (now : Int) : FakeTimer :=
  if 0 < t.period then { t with when := now + t.period } else t

/-- `fakeTimer.tick` (src/unnamed/part_014 lines 71-91), preceded by the
spec-modelled periodic advance (`FakeTimer.advancePeriodic`). For an
`AfterFunc` timer the callback is spawned (`go t.fn()`) and the channel
is untouched; otherwise the tick time is pushed with the nested
non-blocking selects: try to send; if the channel is full, drain one
stale value and try to send again. -/
def FakeTimer.tick (t : FakeTimer) (now : Int) : FakeTimer :=
  let t := t.advancePeriodic now
  if t.hasFn then t
  else
    let s1 := trySend t.ch now
    if s1.2 then { t with ch := s1.1 }
    else
      let r := tryRecv t.ch
      let s2 := trySend r.1 now
      { t with ch := s2.1 }

/-- The arena of timer records: id ↦ record. Ids never reachable from a
clock's `order` list are irrelevant junk. -/
abbrev Arena := Nat → FakeTimer

/-- Pointwise arena update (a write through a `*fakeTimer` pointer). -/
def Arena.set (ar : Arena) (i : Nat) (t : FakeTimer) : Arena :=
  fun j => if j = i then t else ar j

/-- A lifecycle hook dispatch, as spawned by `callCreateCallback`,
`callResetCallback` and `callStopCallback` (src/unnamed/part_016 lines
512-540); the flag is the `ticker bool` argument. -/
inductive Event where
  | create (ticker : Bool)
  | reset (ticker : Bool)
  | stop (ticker : Bool)
  deriving Repr, DecidableEq

/-- `FakeClock` (src/unnamed/part_016 lines 369-375): the atomic cursor
`now`, the `timers` slice (as `order`, a list of arena ids) and the
arena holding the records; `nextId` allocates fresh ids. -/
structure FakeClock where
  now : Int
  arena : Arena
  order : List Nat
  nextId : Nat

/-- `NewFakeClock()` (src/unnamed/part_016 lines 377-393): cursor 0, no
pending timers. -/
def NewFakeClock : FakeClock :=
  { now := 0, arena := fun _ => default, order := [], nextId := 0 }

/-- A fake clock whose cursor has been set to `n` (`NewFakeClock`
followed by `SetNanotime(n)`, which on an empty pending list only
stores the cursor). -/
def fakeAt (n : Int) : FakeClock :=
  { now := n, arena := fun _ => default, order := [], nextId := 0 }

/-- `FakeClock.Nanotime` (src/unnamed/part_016 lines 412-414): reads the
atomic cursor through the monotonic-clock closure installed by
`NewFakeClock`. -/
def FakeClock.Nanotime (c : FakeClock) : Int := c.now

/-- Result of `stopTimerNosync`: the updated arena, the hook events
spawned, and the returned previous deadline. -/
structure StopResult where
  arena : Arena
  events : List Event
  prev : Int

/-- `FakeClock.stopTimerNosync` (src/unnamed/part_016 lines 615-634):
linear-search the `timers` slice for the record (pointer identity, so:
membership of its id); when found, defer a stop hook, and if the
deadline is non-negative tombstone it to `-1` and return the previous
deadline, else return 0. The record is never removed from the slice. -/
def stopTimerNosync (ar : Arena) (order : List Nat) (tid : Nat) : StopResult :=
  if tid ∈ order then
    let t := ar tid
    if 0 ≤ t.when then
      { arena := ar.set tid { t with when := -1 },
        events := [Event.stop (0 < t.period)], prev := t.when }
    else
      { arena := ar, events := [Event.stop (0 < t.period)], prev := 0 }
  else
    { arena := ar, events := [], prev := 0 }

/-- Result of the firing-scan loop body of `checkTimers`. -/
structure LoopResult where
  arena : Arena
  dels : List (Nat × Int)
  events : List Event
  any : Bool

/-- The loop of `FakeClock.checkTimers` (src/unnamed/part_016 lines
553-563): walk the `timers` slice in order; stop at the first record
whose deadline is negative (tombstone) or beyond `now`; otherwise tick
the record, and if it is not periodic, tombstone it via
`stopTimerNosync` (which searches the full slice, hence the `full`
parameter). `any` records whether at least one record ticked. -/
def checkLoop (full : List Nat) (now : Int) : List Nat → Arena → LoopResult
  | [], ar => { arena := ar, dels := [], events := [], any := false }
  | tid :: rest, ar =>
    let t := ar tid
    if t.when < 0 ∨ now < t.when then
      { arena := ar, dels := [], events := [], any := false }
    else
      let t1 := t.tick now
      let ar1 := ar.set tid t1
      if t1.period ≤ 0 then
        let s := stopTimerNosync ar1 full tid
        let r := checkLoop full now rest s.arena
        { arena := r.arena, dels := (tid, now) :: r.dels,
          events := s.events ++ r.events, any := true }
      else
        let r := checkLoop full now rest ar1
        { arena := r.arena, dels := (tid, now) :: r.dels,
          events := r.events, any := true }

/-- The comparison underlying `sortTimersNosync` (src/unnamed/part_016
lines 602-607). The Go `less(i,j)` is
`b.when < 0 || (a.when >= 0 && a.when < b.when)`: records with
non-negative deadlines sort, in ascending deadline order, before
tombstoned records. `pendLE a b` is the corresponding reflexive total
preorder ("a does not have to come after b"). -/
def pendLE (a b : FakeTimer) : Prop :=
  (0 ≤ a.when ∧ 0 ≤ b.when → a.when ≤ b.when) ∧ (a.when < 0 → b.when < 0)

instance (a b : FakeTimer) : Decidable (pendLE a b) := by
  unfold pendLE; infer_instance

/-- `FakeClock.sortTimersNosync` (src/unnamed/part_016 lines 602-607):
sort the `timers` slice by the `less` comparator, modelled as a sort by
the total preorder `pendLE` on the pointed-to records. -/
def sortTimersNosync (ar : Arena) (l : List Nat) : List Nat :=
  List.insertionSort (fun x y => pendLE (ar x) (ar y)) l

/-- Result of a cursor mutation (`Add` / `SetNanotime`): the new clock,
the deliveries made by the firing scan, and the hook events spawned. -/
structure TickResult where
  clk : FakeClock
  dels : List (Nat × Int)
  events : List Event

/-- `FakeClock.checkTimers` (src/unnamed/part_016 lines 542-564): run
the scan loop over the pending slice and, if anything ticked, re-sort
the slice (the deferred `sortTimersNosync`). -/
def checkTimers (c : FakeClock) (now : Int) : TickResult :=
  let r := checkLoop c.order now c.order c.arena
  let order1 := if r.any then sortTimersNosync r.arena c.order else c.order
  { clk := { c with arena := r.arena, order := order1 },
    dels := r.dels, events := r.events }

/-- `FakeClock.Add` (src/unnamed/part_016 lines 396-398): atomically add
`d` to the cursor and scan at the new cursor value. -/
def FakeClock.Add (c : FakeClock) (d : Int) : TickResult :=
  checkTimers { c with now := c.now + d } (c.now + d)

/-- `FakeClock.SetNanotime` (src/unnamed/part_016 lines 441-444): store
the cursor and scan at the stored value. -/
def FakeClock.SetNanotime (c : FakeClock) (n : Int) : TickResult :=
  checkTimers { c with now := n } n

/-- The body of the inlined search of `FakeClock.addTimer`
(src/unnamed/part_016 lines 488-498), transcribed exactly, with an
explicit fuel argument so that it is structurally recursive: each
iteration shrinks `j - i` by at least one (`i ≤ (i+j)/2 < j` whenever
`i < j`), so any fuel of at least `j - i` computes the loop's result.
Note that the comparison reads `c.timers[i].when` (the lower bound
`i`), not the midpoint `h`, unlike the stdlib binary search the comment
next to it cites. -/
def searchAux (ar : Arena) (l : List Nat) (w : Int) : Nat → Nat → Nat → Nat
  | 0, i, _ => i
  | fuel + 1, i, j =>
    if i < j then
      let cur := (ar (l.getD i 0)).when
      if 0 ≤ cur ∧ cur < w then searchAux ar l w fuel ((i + j) / 2 + 1) j
      else searchAux ar l w fuel i ((i + j) / 2)
    else i

/-- The inlined search of `FakeClock.addTimer`, run with sufficient
fuel (`j - i` bounds the number of iterations). -/
def searchLoop (ar : Arena) (l : List Nat) (w : Int) (i j : Nat) : Nat :=
  searchAux ar l w (j - i) i j

/-- Insertion at position `i` (append + shift right in the Go code,
src/unnamed/part_016 lines 501-506; positions past the end append). -/
def insertAt : Nat → Nat → List Nat → List Nat
  | 0, x, l => x :: l
  | _ + 1, x, [] => [x]
  | n + 1, x, a :: l => a :: insertAt n x l

/-- Result of registering a timer: the new clock, the handle (arena id)
of the new record, and the hook events spawned. -/
structure AddResult where
  clk : FakeClock
  tid : Nat
  events : List Event

/-- `FakeClock.addTimer` (src/unnamed/part_016 lines 481-510): compute
the absolute deadline `now + d`, find an insertion position with the
inlined search, insert a fresh record there, and spawn a create hook
(ticker flag `period > 0`). -/
def FakeClock.addTimer (c : FakeClock) (d period : Int) (hasFn : Bool) : AddResult :=
  let w := c.now + d
  let i := searchLoop c.arena c.order w 0 c.order.length
  let tid := c.nextId
  let t := newFakeTimer d w period hasFn
  { clk := { now := c.now, arena := c.arena.set tid t,
             order := insertAt i tid c.order, nextId := tid + 1 },
    tid := tid,
    events := [Event.create (0 < period)] }

/-- `FakeClock.NewTimer` (src/unnamed/part_016 lines 426-428). -/
def FakeClock.NewTimer (c : FakeClock) (d : Int) : AddResult :=
  c.addTimer d 0 false

/-- `FakeClock.After` (src/unnamed/part_016 lines 401-403): same
registration as `NewTimer`; only the channel is handed out. -/
def FakeClock.After (c : FakeClock) (d : Int) : AddResult :=
  c.addTimer d 0 false

/-- `FakeClock.AfterFunc` (src/unnamed/part_016 lines 407-409). -/
def FakeClock.AfterFunc (c : FakeClock) (d : Int) : AddResult :=
  c.addTimer d 0 true

/-- `FakeClock.NewTicker` (src/unnamed/part_016 lines 418-423): `none`
models the panic on a non-positive interval; otherwise a record with
`period = d` is registered. No error value is returned on any path. -/
def FakeClock.NewTicker (c : FakeClock) (d : Int) : Option AddResult :=
  if d ≤ 0 then none else some (c.addTimer d d false)

/-- Result of `resetTimer`: the new clock, the hook events spawned, and
the returned previous deadline. -/
structure ResetResult where
  clk : FakeClock
  events : List Event
  prev : Int

/-- `FakeClock.resetTimer` (src/unnamed/part_016 lines 581-600): record
the previous deadline, set the deadline to `now + d` and `dur` to `d`,
for periodic records also set the period to `d`, re-sort, and spawn a
reset hook. -/
def FakeClock.resetTimer (c : FakeClock) (tid : Nat) (d : Int) : ResetResult :=
  let t := c.arena tid
  let prev := t.when
  let t1 := { t with
    when := c.now + d,
    dur := d,
    period := if 0 < t.period then d else t.period }
  let ar1 := c.arena.set tid t1
  { clk := { c with arena := ar1, order := sortTimersNosync ar1 c.order },
    events := [Event.reset (0 < t1.period)], prev := prev }

/-- Result of `stopTimer` at the clock level. -/
structure StopTimerResult where
  clk : FakeClock
  events : List Event
  prev : Int

/-- `FakeClock.stopTimer` (src/unnamed/part_016 lines 609-613): take the
lock and run `stopTimerNosync`. -/
def FakeClock.stopTimer (c : FakeClock) (tid : Nat) : StopTimerResult :=
  let s := stopTimerNosync c.arena c.order tid
  { clk := { c with arena := s.arena }, events := s.events, prev := s.prev }

/-- `fakeTimer.Stop` (src/unnamed/part_014 lines 67-69): returns
`clk.stopTimer(t) > 0`. -/
def fakeTimerStop (c : FakeClock) (tid : Nat) : StopTimerResult × Bool :=
  let s := c.stopTimer tid
  (s, 0 < s.prev)

/-- `fakeTimer.Reset` (src/unnamed/part_014 lines 63-65): returns
`clk.resetTimer(t, d) > 0`. -/
def fakeTimerReset (c : FakeClock) (tid : Nat) (d : Int) : ResetResult × Bool :=
  let r := c.resetTimer tid d
  (r, 0 < r.prev)

/-- A cursor mutation issued by the driver: `Add` or `SetNanotime`. -/
inductive CursorOp where
  | add (d : Int)
  | set (n : Int)
  deriving Repr, DecidableEq

/-- Apply one cursor mutation. -/
def applyOp (c : FakeClock) : CursorOp → TickResult
  | .add d => c.Add d
  | .set n => c.SetNanotime n

/-- Run a sequence of cursor mutations, concatenating deliveries. -/
def runOps : FakeClock → List CursorOp → FakeClock × List (Nat × Int)
  | c, [] => (c, [])
  | c, op :: rest =>
    let r := applyOp c op
    let r2 := runOps r.clk rest
    (r2.1, r.dels ++ r2.2)

/-- The tick values delivered to handle `tid` in a delivery log. -/
def delsTo (tid : Nat) (l : List (Nat × Int)) : List Int :=
  (l.filter (fun p => p.1 == tid)).map (fun p => p.2)

/-- The cursor value resulting from one mutation applied at cursor
`cur`. -/
def opCursor (cur : Int) : CursorOp → Int
  | .add d => cur + d
  | .set n => n

/-- Scanning a mutation sequence from cursor `cur`: the resulting cursor
of the first mutation whose resulting cursor reaches `w`, if any. -/
def firstHit (cur w : Int) : List CursorOp → Option Int
  | [] => none
  | op :: rest =>
    let n := opCursor cur op
    if w ≤ n then some n else firstHit n w rest

/-! ### Basic lemmas about the embedding -/

theorem Arena.set_self (ar : Arena) (i : Nat) (t : FakeTimer) :
    ar.set i t i = t := by
  simp [Arena.set]

theorem Arena.set_other (ar : Arena) {i j : Nat} (t : FakeTimer)
    (h : j ≠ i) : ar.set i t j = ar j := by
  simp [Arena.set, h]

theorem FakeTimer.tick_period (t : FakeTimer) (now : Int) :
    (t.tick now).period = t.period := by
  unfold FakeTimer.tick FakeTimer.advancePeriodic
  dsimp only
  split_ifs <;> rfl

theorem FakeTimer.tick_hasFn (t : FakeTimer) (now : Int) :
    (t.tick now).hasFn = t.hasFn := by
  unfold FakeTimer.tick FakeTimer.advancePeriodic
  dsimp only
  split_ifs <;> rfl

theorem FakeTimer.tick_when_of_period_nonpos (t : FakeTimer) (now : Int)
    (h : t.period ≤ 0) : (t.tick now).when = t.when := by
  unfold FakeTimer.tick FakeTimer.advancePeriodic
  have h2 : ¬ 0 < t.period := by omega
  dsimp only
  rw [if_neg h2]
  split_ifs <;> rfl

theorem FakeTimer.tick_when_of_period_pos (t : FakeTimer) (now : Int)
    (h : 0 < t.period) : (t.tick now).when = now + t.period := by
  unfold FakeTimer.tick FakeTimer.advancePeriodic
  dsimp only
  rw [if_pos h]
  split_ifs <;> rfl

theorem FakeTimer.tick_ch_of_hasFn (t : FakeTimer) (now : Int)
    (h : t.hasFn = true) : (t.tick now).ch = t.ch := by
  unfold FakeTimer.tick FakeTimer.advancePeriodic
  dsimp only
  split_ifs <;> simp_all

theorem FakeTimer.tick_ch_of_chan (t : FakeTimer) (now : Int)
    (hfn : t.hasFn = false) (hch : t.ch.length ≤ chanCap) :
    (t.tick now).ch = [now] := by
  have hc : t.ch = [] ∨ ∃ v, t.ch = [v] := by
    rcases hl : t.ch with _ | ⟨v, _ | ⟨w, r⟩⟩
    · exact Or.inl rfl
    · exact Or.inr ⟨v, rfl⟩
    · rw [hl] at hch; simp [chanCap] at hch
  unfold FakeTimer.tick FakeTimer.advancePeriodic trySend tryRecv
  dsimp only
  rcases hc with h1 | ⟨v, h1⟩ <;> split_ifs <;> simp_all [chanCap]

/-! ### The sort comparator is a total preorder -/

theorem pendLE_total (a b : FakeTimer) : pendLE a b ∨ pendLE b a := by
  unfold pendLE
  by_cases ha : 0 ≤ a.when <;> by_cases hb : 0 ≤ b.when
  · rcases le_total a.when b.when with h | h
    · exact Or.inl ⟨fun _ => h, fun h2 => absurd h2 (by omega)⟩
    · exact Or.inr ⟨fun _ => h, fun h2 => absurd h2 (by omega)⟩
  · exact Or.inl ⟨fun h => absurd h.2 hb, fun h => absurd h (by omega)⟩
  · exact Or.inr ⟨fun h => absurd h.2 ha, fun h => absurd h (by omega)⟩
  · exact Or.inl ⟨fun h => absurd h.1 ha, fun _ => by omega⟩

theorem pendLE_trans {a b c : FakeTimer} (h1 : pendLE a b) (h2 : pendLE b c) :
    pendLE a c := by
  unfold pendLE at *
  obtain ⟨h1a, h1b⟩ := h1
  obtain ⟨h2a, h2b⟩ := h2
  constructor
  · rintro ⟨ha, hc⟩
    by_cases hb : 0 ≤ b.when
    · exact le_trans (h1a ⟨ha, hb⟩) (h2a ⟨hb, hc⟩)
    · exact absurd (h2b (by omega)) (by omega)
  · intro ha
    exact h2b (h1b ha)

/-- The pending-collection invariant from the spec: every record with a
non-negative deadline comes before every tombstoned (negative-deadline)
record, and the non-tombstoned records are in ascending deadline order.
Expressed pairwise, this is exactly `pendLE` on every ordered pair. -/
def SortedPending (ar : Arena) (l : List Nat) : Prop :=
  List.Pairwise (fun x y => pendLE (ar x) (ar y)) l

instance (ar : Arena) (l : List Nat) : Decidable (SortedPending ar l) := by
  unfold SortedPending; infer_instance

theorem sortTimersNosync_perm (ar : Arena) (l : List Nat) :
    (sortTimersNosync ar l).Perm l :=
  List.perm_insertionSort _ l

theorem sortTimersNosync_sorted (ar : Arena) (l : List Nat) :
    SortedPending ar (sortTimersNosync ar l) := by
  haveI : IsTotal Nat (fun x y => pendLE (ar x) (ar y)) :=
    ⟨fun x y => pendLE_total (ar x) (ar y)⟩
  haveI : IsTrans Nat (fun x y => pendLE (ar x) (ar y)) :=
    ⟨fun _ _ _ h1 h2 => pendLE_trans h1 h2⟩
  exact List.sorted_insertionSort _ l

theorem sortTimersNosync_mem (ar : Arena) (l : List Nat) (x : Nat) :
    x ∈ sortTimersNosync ar l ↔ x ∈ l :=
  (sortTimersNosync_perm ar l).mem_iff

theorem sortTimersNosync_nodup (ar : Arena) (l : List Nat) (h : l.Nodup) :
    (sortTimersNosync ar l).Nodup :=
  ((sortTimersNosync_perm ar l).nodup_iff).mpr h

theorem SortedPending_congr {ar ar2 : Arena} {l : List Nat}
    (h : ∀ x ∈ l, ar2 x = ar x) (hs : SortedPending ar l) :
    SortedPending ar2 l := by
  unfold SortedPending at *
  refine hs.imp_of_mem ?_
  intro a b ha hb hab
  rw [h a ha, h b hb]
  exact hab

/-! ### Lemmas about delivery logs -/

theorem delsTo_nil (tid : Nat) : delsTo tid [] = [] := rfl

theorem delsTo_cons_self (tid : Nat) (v : Int) (l : List (Nat × Int)) :
    delsTo tid ((tid, v) :: l) = v :: delsTo tid l := by
  simp [delsTo]

theorem delsTo_cons_ne {x tid : Nat} (v : Int) (l : List (Nat × Int))
    (h : x ≠ tid) : delsTo tid ((x, v) :: l) = delsTo tid l := by
  simp [delsTo, h]

theorem delsTo_append (tid : Nat) (a b : List (Nat × Int)) :
    delsTo tid (a ++ b) = delsTo tid a ++ delsTo tid b := by
  simp [delsTo]

/-! ### Lemmas about `stopTimerNosync` -/

theorem stopTimerNosync_arena_other (ar : Arena) (full : List Nat)
    {x tid : Nat} (h : tid ≠ x) :
    (stopTimerNosync ar full x).arena tid = ar tid := by
  unfold stopTimerNosync
  by_cases hm : x ∈ full
  · rw [if_pos hm]
    dsimp only
    by_cases hw : 0 ≤ (ar x).when
    · rw [if_pos hw]; exact Arena.set_other ar _ h
    · rw [if_neg hw]
  · rw [if_neg hm]

theorem stopTimerNosync_ch (ar : Arena) (full : List Nat) (x tid : Nat) :
    ((stopTimerNosync ar full x).arena tid).ch = (ar tid).ch := by
  unfold stopTimerNosync
  by_cases hm : x ∈ full
  · rw [if_pos hm]
    dsimp only
    by_cases hw : 0 ≤ (ar x).when
    · rw [if_pos hw]
      dsimp only
      by_cases h : tid = x
      · subst h; rw [Arena.set_self]
      · rw [Arena.set_other ar _ h]
    · rw [if_neg hw]
  · rw [if_neg hm]

theorem stopTimerNosync_order_mem (ar : Arena) (full : List Nat)
    (x : Nat) (hmem : x ∈ full) (h0 : 0 ≤ (ar x).when) :
    (stopTimerNosync ar full x).arena x = { ar x with when := -1 } ∧
    (stopTimerNosync ar full x).events = [Event.stop (0 < (ar x).period)] := by
  unfold stopTimerNosync
  rw [if_pos hmem, if_pos h0]
  exact ⟨Arena.set_self ar _ _, rfl⟩

/-! ### Lemmas about the firing-scan loop -/

/-- If record `tid` is not due at `now` (tombstoned or with a deadline
beyond the cursor), the scan loop neither touches its record nor
delivers to it. -/
theorem checkLoop_not_due (full : List Nat) (now : Int) (tid : Nat) :
    ∀ (l : List Nat) (ar : Arena),
      ((ar tid).when < 0 ∨ now < (ar tid).when) →
      (checkLoop full now l ar).arena tid = ar tid ∧
      delsTo tid (checkLoop full now l ar).dels = [] := by
  intro l
  induction l with
  | nil => intro ar _; exact ⟨rfl, rfl⟩
  | cons hd rest ih =>
      intro ar h
      by_cases hdue : (ar hd).when < 0 ∨ now < (ar hd).when
      · rw [checkLoop, if_pos hdue]
        exact ⟨rfl, rfl⟩
      · have hne : tid ≠ hd := by
          intro he; subst he; exact hdue h
        rw [checkLoop, if_neg hdue]
        dsimp only
        by_cases hper : ((ar hd).tick now).period ≤ 0
        · rw [if_pos hper]
          dsimp only
          set ar2 := (stopTimerNosync (ar.set hd ((ar hd).tick now)) full hd).arena with har2
          have hpres : ar2 tid = ar tid := by
            rw [har2, stopTimerNosync_arena_other _ _ hne,
              Arena.set_other ar _ hne]
          obtain ⟨ha, hb⟩ := ih ar2 (by rw [hpres]; exact h)
          refine ⟨by rw [ha, hpres], ?_⟩
          rw [delsTo_cons_ne _ _ (Ne.symm hne)]
          exact hb
        · rw [if_neg hper]
          dsimp only
          set ar2 := ar.set hd ((ar hd).tick now) with har2
          have hpres : ar2 tid = ar tid := Arena.set_other ar _ hne
          obtain ⟨ha, hb⟩ := ih ar2 (by rw [hpres]; exact h)
          refine ⟨by rw [ha, hpres], ?_⟩
          rw [delsTo_cons_ne _ _ (Ne.symm hne)]
          exact hb

/-- The record state after the scan has processed a due record `t` at
cursor `now`: it is ticked, and, if one-shot, tombstoned in place by
`stopTimerNosync`. -/
def firedRecord (t : FakeTimer) (now : Int) : FakeTimer :=
  let t1 := t.tick now
  if t1.period ≤ 0 then { t1 with when := -1 } else t1

theorem firedRecord_when_oneshot (t : FakeTimer) (now : Int)
    (hp : t.period ≤ 0) : (firedRecord t now).when = -1 := by
  unfold firedRecord
  dsimp only
  rw [if_pos (by rw [FakeTimer.tick_period]; exact hp)]

theorem firedRecord_when_periodic (t : FakeTimer) (now : Int)
    (hp : 0 < t.period) : (firedRecord t now).when = now + t.period := by
  unfold firedRecord
  dsimp only
  rw [if_neg (by rw [FakeTimer.tick_period]; omega)]
  exact FakeTimer.tick_when_of_period_pos t now hp

theorem firedRecord_period (t : FakeTimer) (now : Int) :
    (firedRecord t now).period = t.period := by
  unfold firedRecord
  dsimp only
  split_ifs <;> simp [FakeTimer.tick_period]

theorem firedRecord_hasFn (t : FakeTimer) (now : Int) :
    (firedRecord t now).hasFn = t.hasFn := by
  unfold firedRecord
  dsimp only
  split_ifs <;> simp [FakeTimer.tick_hasFn]

theorem firedRecord_ch_of_chan (t : FakeTimer) (now : Int)
    (hfn : t.hasFn = false) (hch : t.ch.length ≤ chanCap) :
    (firedRecord t now).ch = [now] := by
  unfold firedRecord
  dsimp only
  split_ifs <;> simp [FakeTimer.tick_ch_of_chan t now hfn hch]

/-- If record `tid` is due at `now` and present in the (duplicate-free,
sorted) scanned segment, the scan loop fires it exactly once: it
delivers `(tid, now)`, leaves the record in the `firedRecord` state,
and, for a one-shot record, spawns a timer-stop hook. -/
theorem checkLoop_fires (full : List Nat) (now : Int) (tid : Nat)
    (hfull : tid ∈ full) :
    ∀ (l : List Nat) (ar : Arena), tid ∈ l → l.Nodup →
      SortedPending ar l →
      0 ≤ (ar tid).when → (ar tid).when ≤ now →
      (checkLoop full now l ar).arena tid = firedRecord (ar tid) now ∧
      delsTo tid (checkLoop full now l ar).dels = [now] ∧
      ((ar tid).period ≤ 0 →
        Event.stop false ∈ (checkLoop full now l ar).events) ∧
      (checkLoop full now l ar).any = true := by
  intro l
  induction l with
  | nil => intro ar hm; cases hm
  | cons hd rest ih =>
      intro ar hm hnd hs h0 hn
      have hdue_tid : ¬ ((ar tid).when < 0 ∨ now < (ar tid).when) := by omega
      by_cases he : hd = tid
      · subst he
        rw [checkLoop, if_neg hdue_tid]
        dsimp only
        by_cases hper : ((ar hd).tick now).period ≤ 0
        · rw [if_pos hper]
          dsimp only
          have hper0 : (ar hd).period ≤ 0 := by
            rw [FakeTimer.tick_period] at hper; exact hper
          set ar1 := ar.set hd ((ar hd).tick now) with har1
          have h1 : ar1 hd = (ar hd).tick now := Arena.set_self ar _ _
          have h1w : 0 ≤ (ar1 hd).when := by
            rw [h1, FakeTimer.tick_when_of_period_nonpos _ _ hper0]
            exact h0
          obtain ⟨hsa, hse⟩ := stopTimerNosync_order_mem ar1 full hd hfull h1w
          set s := stopTimerNosync ar1 full hd with hsdef
          have hstid : s.arena hd = firedRecord (ar hd) now := by
            rw [hsa, h1]
            unfold firedRecord
            dsimp only
            rw [if_pos hper]
          have hneg : (s.arena hd).when < 0 ∨ now < (s.arena hd).when := by
            rw [hstid, firedRecord_when_oneshot _ _ hper0]
            omega
          obtain ⟨hc1, hc2⟩ := checkLoop_not_due full now hd rest s.arena hneg
          refine ⟨by rw [hc1, hstid], ?_, ?_, rfl⟩
          · rw [delsTo_cons_self, hc2]
          · intro _
            have hflag : (decide (0 < (ar1 hd).period)) = false := by
              rw [h1, FakeTimer.tick_period]
              simpa using hper0
            rw [hse] at *
            refine List.mem_append_left _ ?_
            rw [hse, hflag]
            exact List.mem_singleton.mpr rfl
        · rw [if_neg hper]
          dsimp only
          have hperp : 0 < (ar hd).period := by
            rw [FakeTimer.tick_period] at hper; omega
          set ar1 := ar.set hd ((ar hd).tick now) with har1
          have h1 : ar1 hd = (ar hd).tick now := Arena.set_self ar _ _
          have hneg : (ar1 hd).when < 0 ∨ now < (ar1 hd).when := by
            rw [h1, FakeTimer.tick_when_of_period_pos _ _ hperp]
            omega
          obtain ⟨hc1, hc2⟩ := checkLoop_not_due full now hd rest ar1 hneg
          refine ⟨?_, ?_, ?_, rfl⟩
          · rw [hc1, h1]
            unfold firedRecord
            dsimp only
            rw [if_neg hper]
          · rw [delsTo_cons_self, hc2]
          · intro hcontra; omega
      · have hne : tid ≠ hd := fun h => he h.symm
        have hm' : tid ∈ rest := by
          rcases List.mem_cons.mp hm with h | h
          · exact absurd h hne
          · exact h
        have hhdnr : hd ∉ rest := (List.nodup_cons.mp hnd).1
        have hndr : rest.Nodup := (List.nodup_cons.mp hnd).2
        obtain ⟨hrel, hrest⟩ := List.pairwise_cons.mp hs
        have hple : pendLE (ar hd) (ar tid) := hrel tid hm'
        have hhd0 : 0 ≤ (ar hd).when := by
          by_contra hneg
          have := hple.2 (by omega)
          omega
        have hhdn : (ar hd).when ≤ now :=
          le_trans (hple.1 ⟨hhd0, h0⟩) hn
        have hdue_hd : ¬ ((ar hd).when < 0 ∨ now < (ar hd).when) := by omega
        rw [checkLoop, if_neg hdue_hd]
        dsimp only
        by_cases hper : ((ar hd).tick now).period ≤ 0
        · rw [if_pos hper]
          dsimp only
          set ar2 := (stopTimerNosync (ar.set hd ((ar hd).tick now)) full hd).arena
            with har2
          have hpt : ∀ x ∈ rest, ar2 x = ar x := by
            intro x hx
            have hxne : x ≠ hd := fun h => hhdnr (h ▸ hx)
            rw [har2, stopTimerNosync_arena_other _ _ hxne,
              Arena.set_other ar _ hxne]
          have htid2 : ar2 tid = ar tid := hpt tid hm'
          obtain ⟨ha, hb, hcv, hany⟩ := ih ar2 hm' hndr
            (SortedPending_congr hpt hrest)
            (by rw [htid2]; exact h0) (by rw [htid2]; exact hn)
          refine ⟨by rw [ha, htid2], ?_, ?_, rfl⟩
          · rw [delsTo_cons_ne _ _ (Ne.symm hne), hb]
          · intro hp
            refine List.mem_append_right _ ?_
            exact hcv (by rw [htid2]; exact hp)
        · rw [if_neg hper]
          dsimp only
          set ar2 := ar.set hd ((ar hd).tick now) with har2
          have hpt : ∀ x ∈ rest, ar2 x = ar x := by
            intro x hx
            have hxne : x ≠ hd := fun h => hhdnr (h ▸ hx)
            rw [har2, Arena.set_other ar _ hxne]
          have htid2 : ar2 tid = ar tid := hpt tid hm'
          obtain ⟨ha, hb, hcv, hany⟩ := ih ar2 hm' hndr
            (SortedPending_congr hpt hrest)
            (by rw [htid2]; exact h0) (by rw [htid2]; exact hn)
          refine ⟨by rw [ha, htid2], ?_, ?_, rfl⟩
          · rw [delsTo_cons_ne _ _ (Ne.symm hne), hb]
          · intro hp
            exact hcv (by rw [htid2]; exact hp)

/-- If the scan loop fired nothing, it changed nothing. -/
theorem checkLoop_any_false (full : List Nat) (now : Int)
    (l : List Nat) (ar : Arena)
    (h : (checkLoop full now l ar).any = false) :
    checkLoop full now l ar =
      { arena := ar, dels := [], events := [], any := false } := by
  cases l with
  | nil => rfl
  | cons hd rest =>
      by_cases hdue : (ar hd).when < 0 ∨ now < (ar hd).when
      · rw [checkLoop, if_pos hdue]
      · exfalso
        rw [checkLoop, if_neg hdue] at h
        dsimp only at h
        by_cases hper : ((ar hd).tick now).period ≤ 0
        · rw [if_pos hper] at h; exact Bool.true_eq_false.mp h
        · rw [if_neg hper] at h; exact Bool.true_eq_false.mp h

/-! ### `checkTimers`-level lemmas -/

theorem checkTimers_clk_arena (c : FakeClock) (now : Int) :
    (checkTimers c now).clk.arena = (checkLoop c.order now c.order c.arena).arena :=
  rfl

theorem checkTimers_clk_now (c : FakeClock) (now : Int) :
    (checkTimers c now).clk.now = c.now :=
  rfl

theorem checkTimers_not_due (c : FakeClock) (now : Int) (tid : Nat)
    (h : (c.arena tid).when < 0 ∨ now < (c.arena tid).when) :
    (checkTimers c now).clk.arena tid = c.arena tid ∧
    delsTo tid (checkTimers c now).dels = [] :=
  checkLoop_not_due c.order now tid c.order c.arena h

theorem checkTimers_fires (c : FakeClock) (now : Int) (tid : Nat)
    (hm : tid ∈ c.order) (hnd : c.order.Nodup)
    (hs : SortedPending c.arena c.order)
    (h0 : 0 ≤ (c.arena tid).when) (hn : (c.arena tid).when ≤ now) :
    (checkTimers c now).clk.arena tid = firedRecord (c.arena tid) now ∧
    delsTo tid (checkTimers c now).dels = [now] ∧
    ((c.arena tid).period ≤ 0 →
      Event.stop false ∈ (checkTimers c now).events) := by
  obtain ⟨h1, h2, h3, _⟩ :=
    checkLoop_fires c.order now tid hm c.order c.arena hm hnd hs h0 hn
  exact ⟨h1, h2, h3⟩

/-- A firing scan preserves membership, duplicate-freedom and
sortedness of the pending collection (either nothing fired and the
clock is untouched, or the deferred `sortTimersNosync` ran). -/
theorem checkTimers_invariants (c : FakeClock) (now : Int) (tid : Nat)
    (hm : tid ∈ c.order) (hnd : c.order.Nodup)
    (hs : SortedPending c.arena c.order) :
    tid ∈ (checkTimers c now).clk.order ∧
    (checkTimers c now).clk.order.Nodup ∧
    SortedPending (checkTimers c now).clk.arena (checkTimers c now).clk.order := by
  unfold checkTimers
  dsimp only
  by_cases ha : (checkLoop c.order now c.order c.arena).any
  · rw [if_pos ha]
    refine ⟨(sortTimersNosync_mem _ _ _).mpr hm,
      sortTimersNosync_nodup _ _ hnd, sortTimersNosync_sorted _ _⟩
  · rw [if_neg ha]
    have heq := checkLoop_any_false c.order now c.order c.arena
      (Bool.of_not_eq_true ha)
    rw [heq]
    exact ⟨hm, hnd, hs⟩

/-! ### Running driver mutation sequences -/

theorem applyOp_eq (c : FakeClock) (op : CursorOp) :
    applyOp c op =
      checkTimers { c with now := opCursor c.now op } (opCursor c.now op) := by
  cases op <;> rfl

/-- A tombstoned record is never revived, touched, or delivered to by
any further sequence of cursor mutations. -/
theorem runOps_tombstoned (tid : Nat) :
    ∀ (ops : List CursorOp) (c : FakeClock),
      (c.arena tid).when < 0 →
      delsTo tid (runOps c ops).2 = [] ∧
      (runOps c ops).1.arena tid = c.arena tid := by
  intro ops
  induction ops with
  | nil => exact fun c _ => ⟨rfl, rfl⟩
  | cons op rest ih =>
      intro c h
      simp only [runOps]
      rw [applyOp_eq]
      set c1 : FakeClock := { c with now := opCursor c.now op } with hc1
      obtain ⟨ha, hb⟩ :=
        checkTimers_not_due c1 (opCursor c.now op) tid (Or.inl h)
      obtain ⟨hc, hd2⟩ :=
        ih (checkTimers c1 (opCursor c.now op)).clk (by rw [ha]; exact h)
      rw [delsTo_append, hb, hc, hd2, ha]
      exact ⟨rfl, rfl⟩

/-- The one-shot lifecycle over an arbitrary driver sequence: a pending
channel-less-or-not one-shot record with non-negative deadline `w`,
sitting in a duplicate-free sorted pending collection, is delivered to
exactly at the first mutation whose resulting cursor reaches `w` (with
the delivered value being that cursor) and never afterwards. -/
theorem runOps_oneshot (tid : Nat) (w : Int) :
    ∀ (ops : List CursorOp) (c : FakeClock),
      tid ∈ c.order → c.order.Nodup → SortedPending c.arena c.order →
      (c.arena tid).when = w → 0 ≤ w → (c.arena tid).period ≤ 0 →
      delsTo tid (runOps c ops).2 = (firstHit c.now w ops).toList := by
  intro ops
  induction ops with
  | nil => intro c _ _ _ _ _ _; rfl
  | cons op rest ih =>
      intro c hm hnd hs hw h0 hp
      simp only [runOps]
      rw [applyOp_eq]
      set n := opCursor c.now op with hn
      set c1 : FakeClock := { c with now := n } with hc1
      have hc1a : c1.arena = c.arena := rfl
      have hc1o : c1.order = c.order := rfl
      by_cases hhit : w ≤ n
      · obtain ⟨ha, hb, _⟩ := checkTimers_fires c1 n tid
          (by rw [hc1o]; exact hm) (by rw [hc1o]; exact hnd)
          (by rw [hc1a, hc1o]; exact hs)
          (by rw [hc1a, hw]; exact h0) (by rw [hc1a, hw]; exact hhit)
        have hwneg : ((checkTimers c1 n).clk.arena tid).when < 0 := by
          rw [ha, hc1a, firedRecord_when_oneshot _ _ hp]
          omega
        obtain ⟨hr1, _⟩ := runOps_tombstoned tid rest _ hwneg
        rw [delsTo_append, hb, hr1]
        rw [firstHit]
        try dsimp only
        rw [← hn, if_pos hhit]
        rfl
      · have hnlt : n < w := by omega
        obtain ⟨ha, hb⟩ := checkTimers_not_due c1 n tid
          (by rw [hc1a, hw]; exact Or.inr hnlt)
        obtain ⟨hm2, hnd2, hs2⟩ := checkTimers_invariants c1 n tid
          (by rw [hc1o]; exact hm) (by rw [hc1o]; exact hnd)
          (by rw [hc1a, hc1o]; exact hs)
        have hnow : (checkTimers c1 n).clk.now = n := checkTimers_clk_now c1 n
        have hih := ih (checkTimers c1 n).clk hm2 hnd2 hs2
          (by rw [ha, hc1a]; exact hw) h0
          (by rw [ha, hc1a]; exact hp)
        rw [delsTo_append, hb, hih, hnow]
        rw [firstHit]
        try dsimp only
        rw [← hn, if_neg hhit]
        rfl

/-! ### Single-record clocks: step lemmas -/

/-- On a clock whose pending collection is the single record `0`, a
scan at a cursor reaching the record's (non-negative) deadline fires it
once: one delivery carrying the scan cursor, and the record moves to
its `firedRecord` state; the collection stays `[0]`. -/
theorem singletonScan_fires (c : FakeClock) (now : Int)
    (ho : c.order = [0])
    (h0 : 0 ≤ (c.arena 0).when) (hd : (c.arena 0).when ≤ now) :
    (checkTimers c now).dels = [(0, now)] ∧
    (checkTimers c now).clk.now = c.now ∧
    (checkTimers c now).clk.order = [0] ∧
    (checkTimers c now).clk.arena 0 = firedRecord (c.arena 0) now := by
  unfold checkTimers
  dsimp only
  rw [ho]
  have hdue : ¬ ((c.arena 0).when < 0 ∨ now < (c.arena 0).when) := by
    omega
  rw [checkLoop, if_neg hdue]
  dsimp only
  by_cases hper : ((c.arena 0).tick now).period ≤ 0
  · rw [if_pos hper]
    dsimp only
    have hper0 : (c.arena 0).period ≤ 0 := by
      rw [FakeTimer.tick_period] at hper; exact hper
    set ar1 := c.arena.set 0 ((c.arena 0).tick now) with har1
    have h1 : ar1 0 = (c.arena 0).tick now := Arena.set_self _ _ _
    have h1w : 0 ≤ (ar1 0).when := by
      rw [h1, FakeTimer.tick_when_of_period_nonpos _ _ hper0]; exact h0
    obtain ⟨hsa, _⟩ := stopTimerNosync_order_mem ar1 [0] 0
      (List.mem_singleton.mpr rfl) h1w
    refine ⟨rfl, rfl, ?_, ?_⟩
    · rfl
    · show (stopTimerNosync ar1 [0] 0).arena 0 = _
      rw [hsa, h1]
      unfold firedRecord
      dsimp only
      rw [if_pos hper]
  · rw [if_neg hper]
    dsimp only
    refine ⟨rfl, rfl, rfl, ?_⟩
    show (c.arena.set 0 ((c.arena 0).tick now)) 0 = _
    rw [Arena.set_self]
    unfold firedRecord
    dsimp only
    rw [if_neg hper]

/-- On a single-record clock, a scan that does not reach the record's
deadline (or finds it tombstoned) delivers nothing and changes
nothing. -/
theorem singletonScan_idle (c : FakeClock) (now : Int)
    (ho : c.order = [0])
    (h : (c.arena 0).when < 0 ∨ now < (c.arena 0).when) :
    (checkTimers c now).dels = [] ∧
    (checkTimers c now).clk.now = c.now ∧
    (checkTimers c now).clk.order = [0] ∧
    (checkTimers c now).clk.arena = c.arena := by
  unfold checkTimers
  dsimp only
  rw [ho, checkLoop, if_pos h]
  exact ⟨rfl, rfl, rfl, rfl⟩

/-- `Add` on a single-record clock reaching the deadline. -/
theorem singletonAdd_fires (c : FakeClock) (d : Int)
    (ho : c.order = [0])
    (h0 : 0 ≤ (c.arena 0).when) (hd : (c.arena 0).when ≤ c.now + d) :
    (c.Add d).dels = [(0, c.now + d)] ∧
    (c.Add d).clk.now = c.now + d ∧
    (c.Add d).clk.order = [0] ∧
    (c.Add d).clk.arena 0 = firedRecord (c.arena 0) (c.now + d) :=
  singletonScan_fires { c with now := c.now + d } (c.now + d) ho h0 hd

/-- `Add` on a single-record clock missing the deadline. -/
theorem singletonAdd_idle (c : FakeClock) (d : Int)
    (ho : c.order = [0])
    (h : (c.arena 0).when < 0 ∨ c.now + d < (c.arena 0).when) :
    (c.Add d).dels = [] ∧
    (c.Add d).clk.now = c.now + d ∧
    (c.Add d).clk.order = [0] ∧
    (c.Add d).clk.arena = c.arena :=
  singletonScan_idle { c with now := c.now + d } (c.now + d) ho h

/-- The expected tick times of a period-`P` alarm whose last firing
cursor (or registration cursor) was `base`, over the next `k`
`P`-sized steps: `base + P`, `base + 2P`, ..., `base + kP`. -/
def tickTimes (base P : Int) (k : Nat) : List Int :=
  (List.range k).map (fun i : Nat => base + ((i : Int) + 1) * P)

theorem tickTimes_zero (base P : Int) : tickTimes base P 0 = [] := rfl

theorem tickTimes_succ (base P : Int) (n : Nat) :
    tickTimes base P (n + 1) = (base + P) :: tickTimes (base + P) P n := by
  unfold tickTimes
  rw [List.range_succ_eq_map, List.map_cons, List.map_map]
  congr 1
  · push_cast; ring
  · refine List.map_congr_left ?_
    intro a _
    simp only [Function.comp]
    push_cast
    ring

/-- A single periodic record with period `P > 0`, deadline one period
ahead of the cursor and a never-negative deadline, advanced in `k`
separate `P`-sized steps, delivers exactly one tick per step, each
carrying that step's cursor, and ends with its deadline one period past
the last firing cursor. -/
theorem tickerRun (P : Int) (hP : 0 < P) :
    ∀ (k : Nat) (c : FakeClock),
      c.order = [0] → (c.arena 0).when = c.now + P → 0 ≤ c.now + P →
      (c.arena 0).period = P →
      delsTo 0 (runOps c (List.replicate k (CursorOp.add P))).2
        = tickTimes c.now P k ∧
      (runOps c (List.replicate k (CursorOp.add P))).1.now
        = c.now + (k : Int) * P ∧
      ((runOps c (List.replicate k (CursorOp.add P))).1.arena 0).when
        = c.now + (k : Int) * P + P ∧
      (runOps c (List.replicate k (CursorOp.add P))).1.order = [0] := by
  intro k
  induction k with
  | zero =>
      intro c ho hw h0 hper
      simp only [List.replicate_zero, Nat.cast_zero, zero_mul, add_zero,
        tickTimes_zero]
      exact ⟨rfl, rfl, hw, ho⟩
  | succ n ih =>
      intro c ho hw h0 hper
      rw [List.replicate_succ]
      simp only [runOps]
      have happ : applyOp c (CursorOp.add P) = c.Add P := rfl
      rw [happ]
      obtain ⟨hdels, hnow, horder, harena⟩ :=
        singletonAdd_fires c P ho (by omega) (by omega)
      have hperp : 0 < (c.arena 0).period := by omega
      have hw1 : ((c.Add P).clk.arena 0).when = (c.Add P).clk.now + P := by
        rw [harena, hnow, firedRecord_when_periodic _ _ hperp, hper]
      have hper1 : ((c.Add P).clk.arena 0).period = P := by
        rw [harena, firedRecord_period, hper]
      have h01 : 0 ≤ (c.Add P).clk.now + P := by
        rw [hnow]; omega
      obtain ⟨ih1, ih2, ih3, ih4⟩ := ih (c.Add P).clk horder hw1 h01 hper1
      refine ⟨?_, ?_, ?_, ih4⟩
      · rw [delsTo_append, hdels, ih1, delsTo_cons_self, delsTo_nil,
          tickTimes_succ, hnow]
        rfl
      · rw [ih2, hnow]
        push_cast
        ring
      · rw [ih3, hnow]
        push_cast
        ring

/-! ### Channel occupancy bound -/

/-- Every record's delivery channel holds at most `chanCap` (= 1)
undelivered ticks. -/
def ChBound (c : FakeClock) : Prop :=
  ∀ tid, (c.arena tid).ch.length ≤ chanCap

theorem FakeTimer.tick_ch_length (t : FakeTimer) (now : Int)
    (h : t.ch.length ≤ chanCap) : ((t.tick now).ch).length ≤ chanCap := by
  cases hfn : t.hasFn
  · rw [FakeTimer.tick_ch_of_chan t now hfn h]
    simp [chanCap]
  · rw [FakeTimer.tick_ch_of_hasFn t now hfn]
    exact h

theorem checkLoop_ChBound (full : List Nat) (now : Int) :
    ∀ (l : List Nat) (ar : Arena),
      (∀ x, (ar x).ch.length ≤ chanCap) →
      ∀ x, (((checkLoop full now l ar).arena x).ch).length ≤ chanCap := by
  intro l
  induction l with
  | nil => intro ar h x; exact h x
  | cons hd rest ih =>
      intro ar h x
      by_cases hdue : (ar hd).when < 0 ∨ now < (ar hd).when
      · rw [checkLoop, if_pos hdue]; exact h x
      · rw [checkLoop, if_neg hdue]
        dsimp only
        have hb1 : ∀ y, ((ar.set hd ((ar hd).tick now)) y).ch.length ≤ chanCap := by
          intro y
          by_cases hy : y = hd
          · subst hy; rw [Arena.set_self]
            exact FakeTimer.tick_ch_length _ _ (h y)
          · rw [Arena.set_other _ _ hy]; exact h y
        by_cases hper : ((ar hd).tick now).period ≤ 0
        · rw [if_pos hper]
          dsimp only
          refine ih _ ?_ x
          intro y
          rw [stopTimerNosync_ch]
          exact hb1 y
        · rw [if_neg hper]
          dsimp only
          exact ih _ hb1 x

theorem checkTimers_ChBound (c : FakeClock) (now : Int) (h : ChBound c) :
    ChBound (checkTimers c now).clk :=
  fun tid => checkLoop_ChBound c.order now c.order c.arena h tid

theorem Add_ChBound (c : FakeClock) (d : Int) (h : ChBound c) :
    ChBound (c.Add d).clk :=
  checkTimers_ChBound _ _ h

theorem SetNanotime_ChBound (c : FakeClock) (n : Int) (h : ChBound c) :
    ChBound (c.SetNanotime n).clk :=
  checkTimers_ChBound _ _ h

theorem addTimer_ChBound (c : FakeClock) (d period : Int) (hasFn : Bool)
    (h : ChBound c) : ChBound (c.addTimer d period hasFn).clk := by
  intro tid
  show ((c.arena.set c.nextId _ tid).ch).length ≤ chanCap
  by_cases hy : tid = c.nextId
  · subst hy; rw [Arena.set_self]; simp [newFakeTimer, chanCap]
  · rw [Arena.set_other _ _ hy]; exact h tid

theorem resetTimer_ChBound (c : FakeClock) (tid : Nat) (d : Int)
    (h : ChBound c) : ChBound (c.resetTimer tid d).clk := by
  intro x
  show ((c.arena.set tid _ x).ch).length ≤ chanCap
  by_cases hy : x = tid
  · subst hy; rw [Arena.set_self]; exact h x
  · rw [Arena.set_other _ _ hy]; exact h x

theorem stopTimer_ChBound (c : FakeClock) (tid : Nat)
    (h : ChBound c) : ChBound (c.stopTimer tid).clk := by
  intro x
  show (((stopTimerNosync c.arena c.order tid).arena x).ch).length ≤ chanCap
  rw [stopTimerNosync_ch]
  exact h x

theorem NewFakeClock_ChBound : ChBound NewFakeClock := by
  intro tid
  simp [NewFakeClock, chanCap, default]

/-! ### Claims -/

/-- Sequential cursor advancement. -/
def addMany (c : FakeClock) (ds : List Int) : FakeClock :=
  ds.foldl (fun c d => (c.Add d).clk) c

/-- Claim C8: for every starting cursor and every finite sequence of
`Add` calls with signed deltas summing to `S`, the cursor (`Nanotime`)
after the sequence equals the start plus `S`, independently of how `S`
is partitioned across the calls. -/
theorem claim_C8 (c : FakeClock) (ds : List Int) :
    (addMany c ds).Nanotime = c.Nanotime + ds.sum := by
  induction ds generalizing c with
  | nil => simp [addMany, FakeClock.Nanotime]
  | cons d rest ih =>
      have h1 : addMany c (d :: rest) = addMany (c.Add d).clk rest := rfl
      have h2 : (c.Add d).clk.Nanotime = c.Nanotime + d := rfl
      rw [h1, ih, h2, List.sum_cons]
      ring

/-- Claim C9: `FakeClock.NewTicker d` signals a programmer-error fault
(panics, modelled as `none`) precisely when `d ≤ 0`, and returns a
ticker (`isSome`) precisely when `0 < d`; no recoverable error value
exists on any path. -/
theorem claim_C9 (c : FakeClock) (d : Int) :
    (c.NewTicker d = none ↔ d ≤ 0) ∧
    ((c.NewTicker d).isSome ↔ 0 < d) := by
  unfold FakeClock.NewTicker
  by_cases h : d ≤ 0
  · rw [if_pos h]
    constructor
    · simpa using h
    · simp
      omega
  · rw [if_neg h]
    constructor
    · simp
      omega
    · simp
      omega

/-- Claim C3 (code bug): the spec's invariant says that after every
mutation of the pending collection (addTimer, Reset, Stop, the firing
scan) all records with non-negative deadlines precede tombstoned ones,
in ascending deadline order. Evaluating the code shows two mutations
break it. (i) `stopTimer` tombstones in place without re-sorting: with
pending deadlines `[10, 20]`, stopping the first leaves the tombstone
in front of the active record, and the following `Add 20` scan
early-returns on the tombstone, delivering nothing to the now-due
second timer. (ii) `addTimer`'s inlined search compares `timers[i]`
where the cited stdlib algorithm compares the midpoint `timers[h]`,
so after registering deadlines 10, 20, 30, 40, 50 a new deadline-15
record is inserted between 30 and 40. -/
theorem claim_C3 :
    (¬ SortedPending
      (fakeTimerStop (((fakeAt 0).NewTimer 10).clk.NewTimer 20).clk 0).1.clk.arena
      (fakeTimerStop (((fakeAt 0).NewTimer 10).clk.NewTimer 20).clk 0).1.clk.order) ∧
    delsTo 1
      ((fakeTimerStop (((fakeAt 0).NewTimer 10).clk.NewTimer 20).clk 0).1.clk.Add 20).dels
      = [] ∧
    (let c6 := ((((((fakeAt 0).NewTimer 10).clk.NewTimer 20).clk.NewTimer 30).clk.NewTimer
        40).clk.NewTimer 50).clk.NewTimer 15 |>.clk
     c6.order.map (fun i => (c6.arena i).when) = [10, 20, 30, 15, 40, 50] ∧
     ¬ SortedPending c6.arena c6.order) := by
  decide

/-- Claim C4 counterexample: a timer registered with duration 0 at
cursor 0 has not fired (no mutation has happened) and has not been
stopped, yet its very first `Stop` returns `false` (the code compares
`prev > 0`, and the deadline is 0) even though it does tombstone the
record. -/
theorem claim_C4_counterexample :
    (((fakeAt 0).NewTimer 0).clk.arena 0).when = 0 ∧
    0 ∈ ((fakeAt 0).NewTimer 0).clk.order ∧
    (fakeTimerStop ((fakeAt 0).NewTimer 0).clk 0).2 = false ∧
    ((fakeTimerStop ((fakeAt 0).NewTimer 0).clk 0).1.clk.arena 0).when = -1 := by
  decide

/-- Claim C4 (amended): for every pending record with a strictly
positive deadline, the first `Stop` returns `true` and tombstones the
record, and a second `Stop` returns `false` and leaves the clock state
(cursor, arena, pending order) unchanged. (As stated the claim fails
for an unfired, unstopped record whose deadline is ≤ 0: `Stop` compares
the previous deadline with `> 0`.) -/
theorem claim_C4 (c : FakeClock) (tid : Nat)
    (hm : tid ∈ c.order) (h0 : 0 < (c.arena tid).when) :
    (fakeTimerStop c tid).2 = true ∧
    ((fakeTimerStop c tid).1.clk.arena tid).when = -1 ∧
    (fakeTimerStop (fakeTimerStop c tid).1.clk tid).2 = false ∧
    (fakeTimerStop (fakeTimerStop c tid).1.clk tid).1.clk
      = (fakeTimerStop c tid).1.clk := by
  have h0' : 0 ≤ (c.arena tid).when := le_of_lt h0
  have e1 : stopTimerNosync c.arena c.order tid =
      { arena := c.arena.set tid { c.arena tid with when := -1 },
        events := [Event.stop (0 < (c.arena tid).period)],
        prev := (c.arena tid).when } := by
    unfold stopTimerNosync
    rw [if_pos hm, if_pos h0']
  have harena1 : (fakeTimerStop c tid).1.clk.arena tid
      = { c.arena tid with when := -1 } := by
    show (stopTimerNosync c.arena c.order tid).arena tid = _
    rw [e1]
    exact Arena.set_self _ _ _
  have hm1 : tid ∈ (fakeTimerStop c tid).1.clk.order := hm
  have hneg : ¬ (0 ≤ ((fakeTimerStop c tid).1.clk.arena tid).when) := by
    rw [harena1]
    simp
  have e2 : stopTimerNosync (fakeTimerStop c tid).1.clk.arena
      (fakeTimerStop c tid).1.clk.order tid =
      { arena := (fakeTimerStop c tid).1.clk.arena,
        events := [Event.stop (0 < ((fakeTimerStop c tid).1.clk.arena tid).period)],
        prev := 0 } := by
    unfold stopTimerNosync
    rw [if_pos hm1, if_neg hneg]
  refine ⟨?_, by rw [harena1], ?_, ?_⟩
  · show decide (0 < (stopTimerNosync c.arena c.order tid).prev) = true
    rw [e1]
    simpa using h0
  · show decide (0 < (stopTimerNosync (fakeTimerStop c tid).1.clk.arena
      (fakeTimerStop c tid).1.clk.order tid).prev) = false
    rw [e2]
    rfl
  · show ({ (fakeTimerStop c tid).1.clk with
        arena := (stopTimerNosync (fakeTimerStop c tid).1.clk.arena
          (fakeTimerStop c tid).1.clk.order tid).arena } : FakeClock)
      = (fakeTimerStop c tid).1.clk
    rw [e2]

/-- Witness for claim C4 at a concrete input: a timer of duration 5 on
a fresh clock. -/
theorem claim_C4_witness :
    (0 ∈ ((fakeAt 0).NewTimer 5).clk.order ∧
      0 < (((fakeAt 0).NewTimer 5).clk.arena 0).when) ∧
    ((fakeTimerStop ((fakeAt 0).NewTimer 5).clk 0).2 = true ∧
      ((fakeTimerStop ((fakeAt 0).NewTimer 5).clk 0).1.clk.arena 0).when = -1 ∧
      (fakeTimerStop (fakeTimerStop ((fakeAt 0).NewTimer 5).clk 0).1.clk 0).2 = false ∧
      (fakeTimerStop (fakeTimerStop ((fakeAt 0).NewTimer 5).clk 0).1.clk 0).1.clk
        = (fakeTimerStop ((fakeAt 0).NewTimer 5).clk 0).1.clk) :=
  ⟨⟨by decide, by decide⟩,
    claim_C4 ((fakeAt 0).NewTimer 5).clk 0 (by decide) (by decide)⟩

/-- Claim C1 counterexample: a timer of duration `D = 5` registered at
cursor `t0 = 0`, fired by `Add 10`, delivers the tick value 10 (the
cursor of the delivering scan), not `t0 + D = 5` as the claim states. -/
theorem claim_C1_counterexample :
    delsTo 0 ((((fakeAt 0).NewTimer 5).clk.Add 10).dels) = [10] ∧
    ((10 : Int) = 5 → False) := by
  decide

/-- Claim C2 counterexample: a ticker with period `P = 2` registered at
cursor `-10` (deadline `-8`), advanced by one `P`-sized step, delivers
no tick at all (a negative deadline collides with the tombstone
sentinel check of the scan), where the claim promises exactly `k` ticks
for `k` `P`-sized steps. -/
theorem claim_C2_counterexample :
    delsTo 0 ((((fakeAt (-10)).addTimer 2 2 false).clk.Add 2).dels) = [] ∧
    (((fakeAt (-10)).addTimer 2 2 false).clk.arena 0).when = -8 := by
  decide

/-- Claim C5 counterexample: a timer fired at cursor 5, after
`SetNanotime (-10)` and `Reset 5`, gets deadline `-5`; advancing the
cursor by `D = 5` then delivers nothing (the negative deadline is
treated as a tombstone), where the claim promises exactly one more
delivery. -/
theorem claim_C5_counterexample :
    delsTo 0 ((((fakeAt 0).NewTimer 5).clk.Add 5).dels) = [5] ∧
    (((((((fakeAt 0).NewTimer 5).clk.Add 5).clk.SetNanotime
        (-10)).clk.resetTimer 0 5).clk.arena 0).when) = -5 ∧
    delsTo 0 ((((((((fakeAt 0).NewTimer 5).clk.Add 5).clk.SetNanotime
        (-10)).clk.resetTimer 0 5).clk.Add 5).dels)) = [] := by
  decide

/-- Claim C6 counterexample: at cursor `-5`, `NewTimer 0` registers a
record with deadline `-5`; the next mutation `Add 100` (and indeed
every later scan) delivers nothing, because the negative deadline is
indistinguishable from the tombstone sentinel, where the claim promises
delivery on the very next `Add`/`SetNanotime`. -/
theorem claim_C6_counterexample :
    (((fakeAt (-5)).NewTimer 0).clk.arena 0).when = -5 ∧
    delsTo 0 ((((fakeAt (-5)).NewTimer 0).clk.Add 100).dels) = [] := by
  decide

/-- Claim C1 (amended): for every one-shot (period ≤ 0) record with
non-negative deadline `w` pending in a duplicate-free, sorted pending
collection, across any sequence of `Add`/`SetNanotime` mutations the
timer is delivered to exactly once, namely at the first mutation whose
resulting cursor reaches or exceeds `w`, the delivered time value being
that resulting cursor (which equals registration-cursor + duration only
when the mutation lands exactly on the deadline), and never again
unless `Reset` intervenes. -/
theorem claim_C1 (c : FakeClock) (tid : Nat) (w : Int) (ops : List CursorOp)
    (hm : tid ∈ c.order) (hnd : c.order.Nodup)
    (hs : SortedPending c.arena c.order)
    (hw : (c.arena tid).when = w) (h0 : 0 ≤ w)
    (hp : (c.arena tid).period ≤ 0) :
    delsTo tid (runOps c ops).2 = (firstHit c.now w ops).toList :=
  runOps_oneshot tid w ops c hm hnd hs hw h0 hp

/-- Witness for claim C1: a duration-5 timer on a fresh clock, driven
by `Add 3`, `Add 4`, `Add 10` — one delivery, at the second mutation,
with value 7. -/
theorem claim_C1_witness :
    (0 ∈ ((fakeAt 0).NewTimer 5).clk.order ∧
      ((fakeAt 0).NewTimer 5).clk.order.Nodup ∧
      SortedPending ((fakeAt 0).NewTimer 5).clk.arena
        ((fakeAt 0).NewTimer 5).clk.order ∧
      (((fakeAt 0).NewTimer 5).clk.arena 0).when = 5 ∧
      (0 : Int) ≤ 5 ∧
      (((fakeAt 0).NewTimer 5).clk.arena 0).period ≤ 0) ∧
    delsTo 0 (runOps ((fakeAt 0).NewTimer 5).clk
        [CursorOp.add 3, CursorOp.add 4, CursorOp.add 10]).2
      = (firstHit ((fakeAt 0).NewTimer 5).clk.now 5
          [CursorOp.add 3, CursorOp.add 4, CursorOp.add 10]).toList :=
  ⟨⟨by decide, by decide, by decide, by decide, by decide, by decide⟩,
    claim_C1 ((fakeAt 0).NewTimer 5).clk 0 5
      [CursorOp.add 3, CursorOp.add 4, CursorOp.add 10]
      (by decide) (by decide) (by decide) (by decide) (by decide) (by decide)⟩

/-- Claim C2 (amended, spec-modelled periodic advance): for a ticker of
period `P > 0` registered alone at cursor `c0` with `0 ≤ c0 + P`: every
firing advances the deadline to exactly (firing cursor) + `P`;
advancing in `k` separate `P`-sized steps delivers exactly `k` ticks at
`c0+P, ..., c0+kP`; one single `k·P` jump delivers exactly one tick
(carrying `c0+kP`) and still advances the deadline only one period past
the firing cursor; and after a firing, an advance smaller than `P`
delivers nothing. (As stated the claim fails for registrations whose
deadline is negative — see the counterexample.) -/
theorem claim_C2 (c0 P : Int) (k : Nat) (d : Int)
    (hP : 0 < P) (h0 : 0 ≤ c0 + P) (hk : 1 ≤ k) (hd : d < P) :
    ((fakeAt c0).NewTicker P = some ((fakeAt c0).addTimer P P false)) ∧
    delsTo 0 (runOps ((fakeAt c0).addTimer P P false).clk
        (List.replicate k (CursorOp.add P))).2 = tickTimes c0 P k ∧
    (tickTimes c0 P k).length = k ∧
    (((runOps ((fakeAt c0).addTimer P P false).clk
        (List.replicate k (CursorOp.add P))).1.arena 0).when
      = c0 + (k : Int) * P + P) ∧
    delsTo 0 (((fakeAt c0).addTimer P P false).clk.Add ((k : Int) * P)).dels
      = [c0 + (k : Int) * P] ∧
    (((((fakeAt c0).addTimer P P false).clk.Add ((k : Int) * P)).clk.arena 0).when
      = c0 + (k : Int) * P + P) ∧
    delsTo 0 (((((fakeAt c0).addTimer P P false).clk.Add P).clk.Add d).dels) = [] := by
  have ho : ((fakeAt c0).addTimer P P false).clk.order = [0] := rfl
  have hn : ((fakeAt c0).addTimer P P false).clk.now = c0 := rfl
  have hww : (((fakeAt c0).addTimer P P false).clk.arena 0).when = c0 + P := rfl
  have hpp : (((fakeAt c0).addTimer P P false).clk.arena 0).period = P := rfl
  have hkP : P ≤ (k : Int) * P := by
    have h1k : (1 : Int) ≤ (k : Int) := by exact_mod_cast hk
    calc P = 1 * P := (one_mul P).symm
    _ ≤ (k : Int) * P := mul_le_mul_of_nonneg_right h1k (le_of_lt hP)
  obtain ⟨r1, r2, r3, _⟩ := tickerRun P hP k ((fakeAt c0).addTimer P P false).clk
    ho rfl h0 rfl
  obtain ⟨j1, j2, _, j4⟩ := singletonAdd_fires ((fakeAt c0).addTimer P P false).clk
    ((k : Int) * P) ho (by rw [hww]; exact h0) (by rw [hww, hn]; omega)
  obtain ⟨s1, s2, s3, s4⟩ := singletonAdd_fires ((fakeAt c0).addTimer P P false).clk
    P ho (by rw [hww]; exact h0) (by rw [hww, hn])
  refine ⟨?_, ?_, ?_, ?_, ?_, ?_, ?_⟩
  · unfold FakeClock.NewTicker
    rw [if_neg (by omega)]
  · rw [r1, hn]
  · simp [tickTimes]
  · rw [r3, hn]
  · rw [j1, hn, delsTo_cons_self, delsTo_nil]
  · rw [j4, firedRecord_when_periodic _ _ (by rw [hpp]; exact hP), hpp, hn]
  · obtain ⟨i1, _, _, _⟩ := singletonAdd_idle
      (((fakeAt c0).addTimer P P false).clk.Add P).clk d s3
      (Or.inr (by
        rw [s2, s4, firedRecord_when_periodic _ _ (by rw [hpp]; exact hP), hpp, hn]
        omega))
    rw [i1]
    rfl

/-- Witness for claim C2 at `c0 = 0`, `P = 2`, `k = 3`, `d = 1`. -/
theorem claim_C2_witness :
    ((0 : Int) < 2 ∧ (0 : Int) ≤ 0 + 2 ∧ 1 ≤ 3 ∧ (1 : Int) < 2) ∧
    (((fakeAt 0).NewTicker 2 = some ((fakeAt 0).addTimer 2 2 false)) ∧
      delsTo 0 (runOps ((fakeAt 0).addTimer 2 2 false).clk
          (List.replicate 3 (CursorOp.add 2))).2 = tickTimes 0 2 3 ∧
      (tickTimes 0 2 3).length = 3 ∧
      (((runOps ((fakeAt 0).addTimer 2 2 false).clk
          (List.replicate 3 (CursorOp.add 2))).1.arena 0).when
        = 0 + (3 : Int) * 2 + 2) ∧
      delsTo 0 (((fakeAt 0).addTimer 2 2 false).clk.Add ((3 : Int) * 2)).dels
        = [0 + (3 : Int) * 2] ∧
      (((((fakeAt 0).addTimer 2 2 false).clk.Add ((3 : Int) * 2)).clk.arena 0).when
        = 0 + (3 : Int) * 2 + 2) ∧
      delsTo 0 (((((fakeAt 0).addTimer 2 2 false).clk.Add 2).clk.Add 1).dels) = []) :=
  ⟨⟨by decide, by decide, by decide, by decide⟩,
    claim_C2 0 2 3 1 (by decide) (by decide) (by decide) (by decide)⟩

theorem sortTimersNosync_singleton (ar : Arena) (x : Nat) :
    sortTimersNosync ar [x] = [x] := rfl

theorem resetTimer_arena_self (c : FakeClock) (tid : Nat) (d : Int) :
    (c.resetTimer tid d).clk.arena tid =
      { c.arena tid with
        when := c.now + d,
        dur := d,
        period := if 0 < (c.arena tid).period then d else (c.arena tid).period } :=
  Arena.set_self _ _ _

theorem resetTimer_now (c : FakeClock) (tid : Nat) (d : Int) :
    (c.resetTimer tid d).clk.now = c.now := rfl

/-- Claim C5 (amended): for a one-shot timer registered alone at cursor
`t0` with duration `D0` (deadline `t0 + D0 ≥ 0`), fired by `Add D0`,
calling `Reset D` re-arms it with deadline (reset cursor) + `D` while
it stays in the pending collection, and — provided that new deadline is
non-negative — advancing the cursor by `D` delivers exactly one more
tick, carrying `t0 + D0 + D`. (As stated the claim fails when the
reset-time cursor plus `D` is negative — see the counterexample.) -/
theorem claim_C5 (t0 D0 D : Int) (h1 : 0 ≤ t0 + D0) (h2 : 0 ≤ t0 + D0 + D) :
    delsTo 0 ((((fakeAt t0).NewTimer D0).clk.Add D0).dels) = [t0 + D0] ∧
    ((((((fakeAt t0).NewTimer D0).clk.Add D0).clk.resetTimer 0 D).clk.arena 0).when)
      = (t0 + D0) + D ∧
    0 ∈ ((((fakeAt t0).NewTimer D0).clk.Add D0).clk.resetTimer 0 D).clk.order ∧
    delsTo 0 (((((fakeAt t0).NewTimer D0).clk.Add D0).clk.resetTimer 0 D).clk.Add D).dels
      = [(t0 + D0) + D] := by
  have ho : ((fakeAt t0).NewTimer D0).clk.order = [0] := rfl
  have hn : ((fakeAt t0).NewTimer D0).clk.now = t0 := rfl
  have hww : (((fakeAt t0).NewTimer D0).clk.arena 0).when = t0 + D0 := rfl
  obtain ⟨f1, f2, f3, f4⟩ := singletonAdd_fires ((fakeAt t0).NewTimer D0).clk D0
    ho (by rw [hww]; exact h1) (by rw [hww, hn])
  have hreset := resetTimer_arena_self (((fakeAt t0).NewTimer D0).clk.Add D0).clk 0 D
  have hrw : ((((((fakeAt t0).NewTimer D0).clk.Add D0).clk.resetTimer 0 D).clk.arena 0).when)
      = (t0 + D0) + D := by
    rw [hreset]
    show (((fakeAt t0).NewTimer D0).clk.Add D0).clk.now + D = (t0 + D0) + D
    rw [f2, hn]
  have horder2 : ((((fakeAt t0).NewTimer D0).clk.Add D0).clk.resetTimer 0 D).clk.order
      = [0] := by
    show sortTimersNosync _ (((fakeAt t0).NewTimer D0).clk.Add D0).clk.order = [0]
    rw [f3, sortTimersNosync_singleton]
  have hnow2 : ((((fakeAt t0).NewTimer D0).clk.Add D0).clk.resetTimer 0 D).clk.now
      = t0 + D0 := by
    rw [resetTimer_now, f2, hn]
  obtain ⟨g1, _, _, _⟩ := singletonAdd_fires
    ((((fakeAt t0).NewTimer D0).clk.Add D0).clk.resetTimer 0 D).clk D
    horder2 (by rw [hrw]; exact h2) (by rw [hrw, hnow2])
  refine ⟨?_, hrw, ?_, ?_⟩
  · rw [f1, hn, delsTo_cons_self, delsTo_nil]
  · rw [horder2]
    exact List.mem_singleton.mpr rfl
  · rw [g1, hnow2, delsTo_cons_self, delsTo_nil]

/-- Witness for claim C5 at `t0 = 0`, `D0 = 5`, `D = 7`. -/
theorem claim_C5_witness :
    ((0 : Int) ≤ 0 + 5 ∧ (0 : Int) ≤ 0 + 5 + 7) ∧
    (delsTo 0 ((((fakeAt 0).NewTimer 5).clk.Add 5).dels) = [0 + 5] ∧
      ((((((fakeAt 0).NewTimer 5).clk.Add 5).clk.resetTimer 0 7).clk.arena 0).when)
        = (0 + 5) + 7 ∧
      0 ∈ ((((fakeAt 0).NewTimer 5).clk.Add 5).clk.resetTimer 0 7).clk.order ∧
      delsTo 0 (((((fakeAt 0).NewTimer 5).clk.Add 5).clk.resetTimer 0 7).clk.Add 7).dels
        = [(0 + 5) + 7]) :=
  ⟨⟨by decide, by decide⟩, claim_C5 0 5 7 (by decide) (by decide)⟩

/-- Claim C6 (amended): for every duration `d ≤ 0` and registration
cursor `t0` with `t0 + d ≥ 0`, `NewTimer d` (also the registration
underlying `After`) and `AfterFunc d` register, without any fault, a
one-shot record whose deadline `t0 + d` is at or before the current
cursor ("already due"), and the next mutation whose resulting cursor is
at or past that deadline delivers it (pushes the tick for a channel
timer, spawns the callback for `AfterFunc`). (As stated the claim fails
when `t0 + d < 0`, where the record is never delivered — see the
counterexample.) -/
theorem claim_C6 (t0 d : Int) (op : CursorOp) (hd : d ≤ 0)
    (h0 : 0 ≤ t0 + d) (hop : t0 + d ≤ opCursor t0 op) :
    (((fakeAt t0).NewTimer d).clk.arena 0).when = t0 + d ∧
    t0 + d ≤ t0 ∧
    delsTo 0 (applyOp ((fakeAt t0).NewTimer d).clk op).dels = [opCursor t0 op] ∧
    delsTo 0 (applyOp ((fakeAt t0).AfterFunc d).clk op).dels = [opCursor t0 op] := by
  refine ⟨rfl, by omega, ?_, ?_⟩
  · rw [applyOp_eq]
    have hnow : ((fakeAt t0).NewTimer d).clk.now = t0 := rfl
    rw [hnow]
    obtain ⟨g1, _, _, _⟩ := singletonScan_fires
      { ((fakeAt t0).NewTimer d).clk with now := opCursor t0 op }
      (opCursor t0 op) rfl h0 hop
    rw [g1, delsTo_cons_self, delsTo_nil]
  · rw [applyOp_eq]
    have hnow : ((fakeAt t0).AfterFunc d).clk.now = t0 := rfl
    rw [hnow]
    obtain ⟨g1, _, _, _⟩ := singletonScan_fires
      { ((fakeAt t0).AfterFunc d).clk with now := opCursor t0 op }
      (opCursor t0 op) rfl h0 hop
    rw [g1, delsTo_cons_self, delsTo_nil]

/-- Witness for claim C6 at `t0 = 10`, `d = -3`, next mutation
`Add 1`. -/
theorem claim_C6_witness :
    ((-3 : Int) ≤ 0 ∧ (0 : Int) ≤ 10 + (-3) ∧
      (10 : Int) + (-3) ≤ opCursor 10 (CursorOp.add 1)) ∧
    ((((fakeAt 10).NewTimer (-3)).clk.arena 0).when = 10 + (-3) ∧
      (10 : Int) + (-3) ≤ 10 ∧
      delsTo 0 (applyOp ((fakeAt 10).NewTimer (-3)).clk (CursorOp.add 1)).dels
        = [opCursor 10 (CursorOp.add 1)] ∧
      delsTo 0 (applyOp ((fakeAt 10).AfterFunc (-3)).clk (CursorOp.add 1)).dels
        = [opCursor 10 (CursorOp.add 1)]) :=
  ⟨⟨by decide, by decide, by decide⟩,
    claim_C6 10 (-3) (CursorOp.add 1) (by decide) (by decide) (by decide)⟩

/-- Claim C7: a fake timer's channel is created empty with capacity 1
and never holds more than one undelivered tick: the tick delivery keeps
the one-slot bound and, for a channel timer whose channel is within
capacity (in particular an already-full one), always ends, without ever
blocking, with the channel holding exactly the most recent tick (the
stale value having been evicted first); the bound is preserved by every
clock operation, starting from `NewFakeClock`. -/
theorem claim_C7 :
    (∀ (dur w period : Int) (hasFn : Bool),
      (newFakeTimer dur w period hasFn).ch = []) ∧
    (∀ (t : FakeTimer) (now : Int), t.ch.length ≤ chanCap →
      ((t.tick now).ch.length ≤ chanCap ∧
        (t.hasFn = false → (t.tick now).ch = [now]))) ∧
    (∀ (t : FakeTimer) (now v : Int), t.hasFn = false → t.ch = [v] →
      (t.tick now).ch = [now]) ∧
    ChBound NewFakeClock ∧
    (∀ (c : FakeClock) (d : Int), ChBound c → ChBound (c.Add d).clk) ∧
    (∀ (c : FakeClock) (n : Int), ChBound c → ChBound (c.SetNanotime n).clk) ∧
    (∀ (c : FakeClock) (d period : Int) (hasFn : Bool), ChBound c →
      ChBound (c.addTimer d period hasFn).clk) ∧
    (∀ (c : FakeClock) (tid : Nat) (d : Int), ChBound c →
      ChBound (c.resetTimer tid d).clk) ∧
    (∀ (c : FakeClock) (tid : Nat), ChBound c → ChBound (c.stopTimer tid).clk) := by
  refine ⟨fun _ _ _ _ => rfl, ?_, ?_, NewFakeClock_ChBound, Add_ChBound,
    SetNanotime_ChBound, addTimer_ChBound, resetTimer_ChBound, stopTimer_ChBound⟩
  · intro t now h
    exact ⟨FakeTimer.tick_ch_length t now h,
      fun hfn => FakeTimer.tick_ch_of_chan t now hfn h⟩
  · intro t now v hfn hch
    refine FakeTimer.tick_ch_of_chan t now hfn ?_
    rw [hch]
    simp [chanCap]

/-- Witness for claim C7: ticking a timer whose channel already holds
an undelivered value 3 at cursor 7 leaves exactly the value 7. -/
theorem claim_C7_witness :
    ({ hasFn := false, dur := 0, when := 0, period := 0,
        ch := [3] } : FakeTimer).ch.length ≤ chanCap ∧
    (FakeTimer.tick
      { hasFn := false, dur := 0, when := 0, period := 0, ch := [3] } 7).ch = [7] :=
  ⟨by decide,
    claim_C7.2.2.1 { hasFn := false, dur := 0, when := 0, period := 0, ch := [3] }
      7 3 rfl rfl⟩

/-- Claim C10: whenever the firing scan fires a one-shot (period ≤ 0)
record pending in a duplicate-free, sorted collection, the record is
tombstoned through `stopTimerNosync` (deadline becomes -1) yet stays in
the pending collection, and a timer-stop hook (`Event.stop false`) is
dispatched as a consequence of the firing alone. -/
theorem claim_C10 (c : FakeClock) (now : Int) (tid : Nat)
    (hm : tid ∈ c.order) (hnd : c.order.Nodup)
    (hs : SortedPending c.arena c.order)
    (h0 : 0 ≤ (c.arena tid).when) (hn : (c.arena tid).when ≤ now)
    (hp : (c.arena tid).period ≤ 0) :
    ((checkTimers c now).clk.arena tid).when = -1 ∧
    tid ∈ (checkTimers c now).clk.order ∧
    Event.stop false ∈ (checkTimers c now).events := by
  obtain ⟨h1, _, h3⟩ := checkTimers_fires c now tid hm hnd hs h0 hn
  obtain ⟨h4, _, _⟩ := checkTimers_invariants c now tid hm hnd hs
  refine ⟨?_, h4, h3 hp⟩
  rw [h1]
  exact firedRecord_when_oneshot _ _ hp

/-- Witness for claim C10: a duration-5 timer on a fresh clock, scanned
at cursor 9. -/
theorem claim_C10_witness :
    (0 ∈ ((fakeAt 0).NewTimer 5).clk.order ∧
      ((fakeAt 0).NewTimer 5).clk.order.Nodup ∧
      SortedPending ((fakeAt 0).NewTimer 5).clk.arena
        ((fakeAt 0).NewTimer 5).clk.order ∧
      0 ≤ (((fakeAt 0).NewTimer 5).clk.arena 0).when ∧
      (((fakeAt 0).NewTimer 5).clk.arena 0).when ≤ 9 ∧
      (((fakeAt 0).NewTimer 5).clk.arena 0).period ≤ 0) ∧
    (((checkTimers ((fakeAt 0).NewTimer 5).clk 9).clk.arena 0).when = -1 ∧
      0 ∈ (checkTimers ((fakeAt 0).NewTimer 5).clk 9).clk.order ∧
      Event.stop false ∈ (checkTimers ((fakeAt 0).NewTimer 5).clk 9).events) :=
  ⟨⟨by decide, by decide, by decide, by decide, by decide, by decide⟩,
    claim_C10 ((fakeAt 0).NewTimer 5).clk 9 0
      (by decide) (by decide) (by decide) (by decide) (by decide) (by decide)⟩

end Chrono
